import Mathlib

/-!
Shallow embedding of the recipe-management backend
(app/core/models.py, app/recipe/serializers.py, app/recipe/views.py).

Rows carry explicit integer ids; the database is a record of row lists
together with the next fresh id for each table.  Operations that can raise
in Python return Option, with none standing for an uncaught exception.
-/

namespace RecipeApp

/-- Tag row (core/models.py, class Tag): owning user reference and a name. -/
structure TagRow where
  id : Nat
  user : Nat
  name : String
deriving DecidableEq, Repr

/-- Ingredient row.  Modelled from the spec: the Ingredient model is
referenced by serializers.py, views.py and the tests but its class is absent
from the provided core/models.py; the spec says it has a shape identical to
Tag (owning user reference and a name). -/
structure IngredientRow where
  id : Nat
  user : Nat
  name : String
deriving DecidableEq, Repr

/-- Recipe row (core/models.py, class Recipe).  The fields tags, title,
description, time_minutes, price, link, user are from core/models.py; the
price Decimal is abstracted as an integer number of hundredths.  The
ingredients many-to-many set and the image reference are modelled from the
spec: serializers.py and views.py reference recipe.ingredients and a stored
image path, but the provided core/models.py omits both fields. -/
structure Recipe where
  id : Nat
  user : Nat
  title : String
  description : String
  time_minutes : Int
  price : Int
  link : String
  tags : List Nat
  ingredients : List Nat
  image : Option String
deriving DecidableEq, Repr

/-- The relational store: one list per table plus fresh-id counters. -/
structure DB where
  tags : List TagRow
  ingredients : List IngredientRow
  recipes : List Recipe
  nextTagId : Nat
  nextIngredientId : Nat
  nextRecipeId : Nat
deriving DecidableEq, Repr

/-- Many-to-many add (Django m2m add): inserts the link if not yet present. -/
def addLink (l : List Nat) (i : Nat) : List Nat :=
  if l.contains i then l else l ++ [i]

/-- Tag.objects.get_or_create(user = auth_user, name = n): return the first
row matching the (user, name) pair, or append a fresh row. -/
def tagGetOrCreate (db : DB) (u : Nat) (n : String) : TagRow × DB :=
  match db.tags.find? (fun t => t.user == u && t.name == n) with
  | some t => (t, db)
  | none =>
    let t : TagRow := ⟨db.nextTagId, u, n⟩
    (t, { db with tags := db.tags ++ [t], nextTagId := db.nextTagId + 1 })

/-- Ingredient.objects.get_or_create(user = auth_user, name = n). -/
def ingredientGetOrCreate (db : DB) (u : Nat) (n : String) : IngredientRow × DB :=
  match db.ingredients.find? (fun t => t.user == u && t.name == n) with
  | some t => (t, db)
  | none =>
    let t : IngredientRow := ⟨db.nextIngredientId, u, n⟩
    (t, { db with ingredients := db.ingredients ++ [t],
                  nextIngredientId := db.nextIngredientId + 1 })

/-- RecipeSerializer._assigne_tags: for each nested tag name, get-or-create
under the authenticated user and add the row to the recipe tag set. -/
def assigneTags (u : Nat) : List String → Recipe → DB → Recipe × DB
  | [], r, db => (r, db)
  | n :: ns, r, db =>
    let p := tagGetOrCreate db u n
    assigneTags u ns { r with tags := addLink r.tags p.1.id } p.2

/-- RecipeSerializer._assigne_ingredients: same as assigneTags on the
ingredient table and the recipe ingredient set. -/
def assigneIngredients (u : Nat) : List String → Recipe → DB → Recipe × DB
  | [], r, db => (r, db)
  | n :: ns, r, db =>
    let p := ingredientGetOrCreate db u n
    assigneIngredients u ns { r with ingredients := addLink r.ingredients p.1.id } p.2

/-- A request payload for Recipe create/update.  Each field is an Option:
some v means the key is present in the payload with value v, none means the
key is absent.  The user field stands for an owner key supplied in the raw
request body.  Nested tags and ingredients are lists of names, mirroring
lists of single-key name objects. -/
structure RecipePayload where
  title : Option String := none
  description : Option String := none
  time_minutes : Option Int := none
  price : Option Int := none
  link : Option String := none
  tags : Option (List String) := none
  ingredients : Option (List String) := none
  user : Option Nat := none
deriving DecidableEq, Repr

/-- Serializer validation for RecipeDetailSerializer: Meta.fields lists
id, title, time_minutes, price, link, tags, ingredients, description; a
user key in the body is not among the declared fields and is silently
dropped by the framework, all declared writable keys pass through. -/
def validateDetail (p : RecipePayload) : RecipePayload :=
  { p with user := none }

/-- The setattr loop of RecipeSerializer.update: every scalar key present in
the validated data overwrites the stored field (setattr is generic, so a
user key would be applied too if validation let one through). -/
def applyScalars (r : Recipe) (vd : RecipePayload) : Recipe :=
  let r1 := match vd.title with | some v => { r with title := v } | none => r
  let r2 := match vd.description with | some v => { r1 with description := v } | none => r1
  let r3 := match vd.time_minutes with | some v => { r2 with time_minutes := v } | none => r2
  let r4 := match vd.price with | some v => { r3 with price := v } | none => r3
  let r5 := match vd.link with | some v => { r4 with link := v } | none => r4
  match vd.user with | some v => { r5 with user := v } | none => r5

/-- instance.save(): write the row back into the recipes table by id. -/
def saveRecipe (db : DB) (r : Recipe) : DB :=
  { db with recipes := db.recipes.map (fun x => if x.id == r.id then r else x) }

/-- RecipeSerializer.update: pop tags and ingredients from the validated
data; if tags is present (even empty) clear the tag links and reconcile via
assigneTags; if ingredients is present clear the ingredient links and then
— exactly as written at serializers.py line 82 — call assigneTags (not
assigneIngredients) on the ingredient names; finally setattr the remaining
scalars and save. -/
def updateRecipe (authUser : Nat) (inst : Recipe) (vd : RecipePayload) (db : DB) :
    Recipe × DB :=
  let p1 :=
    match vd.tags with
    | none => (inst, db)
    | some ts => assigneTags authUser ts { inst with tags := [] } db
  let p2 :=
    match vd.ingredients with
    | none => p1
    | some ings => assigneTags authUser ings { p1.1 with ingredients := [] } p1.2
  let r := applyScalars p2.1 vd
  (r, saveRecipe p2.2 r)

/-- The PATCH/PUT endpoint for a Recipe: serializer validation followed by
RecipeSerializer.update, with the authenticated caller as context user. -/
def recipeUpdate (caller : Nat) (inst : Recipe) (p : RecipePayload) (db : DB) :
    Recipe × DB :=
  updateRecipe caller inst (validateDetail p) db

/-- The POST endpoint for a Recipe: RecipeViewSet.perform_create passes
user = request.user into serializer.save, and RecipeSerializer.create pops
tags and ingredients, creates the row, then reconciles both nested lists
under the authenticated user. -/
def createRecipe (caller : Nat) (p : RecipePayload) (db : DB) : Recipe × DB :=
  let vd := validateDetail p
  let r0 : Recipe :=
    { id := db.nextRecipeId, user := caller,
      title := vd.title.getD "", description := vd.description.getD "",
      time_minutes := vd.time_minutes.getD 0, price := vd.price.getD 0,
      link := vd.link.getD "", tags := [], ingredients := [], image := none }
  let db0 := { db with nextRecipeId := db.nextRecipeId + 1 }
  let p1 := assigneTags caller (vd.tags.getD []) r0 db0
  let p2 := assigneIngredients caller (vd.ingredients.getD []) p1.1 p1.2
  (p2.1, { p2.2 with recipes := p2.2.recipes ++ [p2.1] })

/-- True for a character Python int() strips as surrounding whitespace. -/
def isPySpace (c : Char) : Bool :=
  c == ' ' || c == '\t' || c == '\n' || c == '\r' || c == '\x0b' || c == '\x0c'

/-- Continuation of the digit scan of Python int(): digits may be separated
by single underscores, an underscore must be followed by a digit. -/
def pyDigitsAux : Nat → List Char → Option Nat
  | acc, [] => some acc
  | acc, c :: cs =>
    if c.isDigit then pyDigitsAux (10 * acc + (c.toNat - 48)) cs
    else if c == '_' then
      match cs with
      | d :: cs' => if d.isDigit then pyDigitsAux (10 * acc + (d.toNat - 48)) cs' else none
      | [] => none
    else none

/-- Digit scan of Python int(): at least one digit, leading digit required. -/
def pyDigits : List Char → Option Nat
  | [] => none
  | c :: cs => if c.isDigit then pyDigitsAux (c.toNat - 48) cs else none

/-- Python int(s) on a decimal string: strip whitespace, optional sign, then
a nonempty digit run; none models a raised ValueError. -/
def pyInt (s : String) : Option Int :=
  let cs := (((s.toList.dropWhile isPySpace).reverse.dropWhile isPySpace).reverse)
  match cs with
  | '+' :: rest => (pyDigits rest).map Int.ofNat
  | '-' :: rest => (pyDigits rest).map (fun n => -(Int.ofNat n))
  | rest => (pyDigits rest).map Int.ofNat

/-- The list comprehension inside RecipeViewSet._params_to_ints: convert the
tokens left to right, the first failing token raises. -/
def intListParse : List String → Option (List Int)
  | [] => some []
  | s :: ss =>
    match pyInt s with
    | none => none
    | some v =>
      match intListParse ss with
      | none => none
      | some vs => some (v :: vs)

/-- Splitting on commas as Python str.split does: every comma separates,
adjacent commas and string ends yield empty tokens. -/
def splitCommaAux : List Char → List Char → List String
  | [], acc => [String.mk acc.reverse]
  | c :: cs, acc =>
    if c == ',' then String.mk acc.reverse :: splitCommaAux cs []
    else splitCommaAux cs (c :: acc)

/-- The qs.split(',') call inside RecipeViewSet._params_to_ints. -/
def splitComma (s : String) : List String :=
  splitCommaAux s.toList []

/-- RecipeViewSet._params_to_ints: split on commas and convert each token. -/
def paramsToInts (qs : String) : Option (List Int) :=
  intListParse (splitComma qs)

/-- Python truthiness of an optional query parameter: an absent parameter
and the empty string are both falsy. -/
def truthy (o : Option String) : Option String :=
  match o with
  | none => none
  | some s => if s.isEmpty then none else some s

/-- The relational join behind filter(tags__id__in = ids): each recipe
appears once per matching tag link, so a recipe matching several ids is
duplicated until distinct() collapses it. -/
def joinTags (qs : List Recipe) (ids : List Int) : List Recipe :=
  qs.flatMap (fun r => (r.tags.filter (fun t => ids.contains (Int.ofNat t))).map (fun _ => r))

/-- The relational join behind filter(ingredients__id__in = ids). -/
def joinIngredients (qs : List Recipe) (ids : List Int) : List Recipe :=
  qs.flatMap (fun r => (r.ingredients.filter (fun t => ids.contains (Int.ofNat t))).map (fun _ => r))

/-- Insert into a list sorted by the given comparator. -/
def insertBy (le : α → α → Bool) (a : α) : List α → List α
  | [] => [a]
  | b :: bs => if le a b then a :: b :: bs else b :: insertBy le a bs

/-- Insertion sort by the given comparator, modelling order_by. -/
def sortBy (le : α → α → Bool) : List α → List α
  | [] => []
  | a :: as => insertBy le a (sortBy le as)

/-- Comparator for order_by('-id'): larger ids first. -/
def idDesc (a b : Recipe) : Bool := b.id ≤ a.id

/-- The one tag filter branch of RecipeViewSet.get_queryset: skipped when
the parameter is falsy, raises when a token fails to convert. -/
def applyTagFilter (qs : List Recipe) (p : Option String) : Option (List Recipe) :=
  match truthy p with
  | none => some qs
  | some s =>
    match paramsToInts s with
    | none => none
    | some ids => some (joinTags qs ids)

/-- The ingredient filter branch of RecipeViewSet.get_queryset. -/
def applyIngredientFilter (qs : List Recipe) (p : Option String) : Option (List Recipe) :=
  match truthy p with
  | none => some qs
  | some s =>
    match paramsToInts s with
    | none => none
    | some ids => some (joinIngredients qs ids)

/-- RecipeViewSet.get_queryset: optional tag and ingredient id filters, then
filter(user = request.user), order_by('-id') and distinct(). -/
def recipeGetQueryset (db : DB) (caller : Nat) (tagsParam ingredientsParam : Option String) :
    Option (List Recipe) :=
  match applyTagFilter db.recipes tagsParam with
  | none => none
  | some q1 =>
    match applyIngredientFilter q1 ingredientsParam with
    | none => none
    | some q2 => some (((sortBy idDesc (q2.filter (fun r => r.user == caller)))).dedup)

/-- Comparator for order_by('-name'): later names first. -/
def nameDescTag (a b : TagRow) : Bool := decide (¬ a.name < b.name)

/-- Comparator for order_by('-name') on ingredient rows. -/
def nameDescIngredient (a b : IngredientRow) : Bool := decide (¬ a.name < b.name)

/-- TagsViewSet.get_queryset: bool(int(assigned_only param, default 0)),
optional restriction to rows linked from some recipe, then ownership filter,
order_by('-name') and distinct(); a non-integer parameter raises. -/
def tagsGetQueryset (db : DB) (caller : Nat) (assignedOnlyParam : Option String) :
    Option (List TagRow) :=
  let v : Option Int :=
    match assignedOnlyParam with
    | none => some 0
    | some s => pyInt s
  match v with
  | none => none
  | some n =>
    let q := if n != 0 then
        db.tags.filter (fun t => db.recipes.any (fun r => r.tags.contains t.id))
      else db.tags
    some ((sortBy nameDescTag (q.filter (fun t => t.user == caller))).dedup)

/-- IngredientsViewSet.get_queryset: same shape as TagsViewSet. -/
def ingredientsGetQueryset (db : DB) (caller : Nat) (assignedOnlyParam : Option String) :
    Option (List IngredientRow) :=
  let v : Option Int :=
    match assignedOnlyParam with
    | none => some 0
    | some s => pyInt s
  match v with
  | none => none
  | some n =>
    let q := if n != 0 then
        db.ingredients.filter (fun t => db.recipes.any (fun r => r.ingredients.contains t.id))
      else db.ingredients
    some ((sortBy nameDescIngredient (q.filter (fun t => t.user == caller))).dedup)

/-- Image upload payload.  Modelled from the spec: RecipeImageSerializer is
referenced by views.py but absent from the provided serializers.py; the spec
says the operation validates the payload is a decodable image, so the
payload carries a decodability flag with its raw content. -/
structure ImagePayload where
  decodable : Bool
  content : String
deriving DecidableEq, Repr

/-- Image storage path.  Modelled from the spec: stored at a path derived
from the Recipe identifier. -/
def recipeImagePath (recipeId : Nat) : String :=
  "uploads/recipe/" ++ toString recipeId

/-- RecipeViewSet.upload_image: if the serializer validates the payload as a
decodable image, record the derived path on the recipe, save and answer 200;
otherwise answer 400 with no mutation (views.py lines 75 to 84; the image
field validation is modelled from the spec, see ImagePayload). -/
def uploadImage (inst : Recipe) (p : ImagePayload) (db : DB) : (Recipe × DB) × Nat :=
  if p.decodable then
    let r := { inst with image := some (recipeImagePath inst.id) }
    ((r, saveRecipe db r), 200)
  else ((inst, db), 400)

/-- Specification-side description of the tag-filtered Recipe listing,
written from the spec wording: the caller recipes whose tag set intersects
the given id list.  Compared against recipeGetQueryset. -/
def specRecipesWithTagIn (db : DB) (u : Nat) (ids : List Int) : List Recipe :=
  db.recipes.filter (fun r => r.user == u && r.tags.any (fun t => ids.contains (Int.ofNat t)))

/-- Specification-side description of the ingredient-filtered Recipe
listing, compared against recipeGetQueryset. -/
def specRecipesWithIngredientIn (db : DB) (u : Nat) (ids : List Int) : List Recipe :=
  db.recipes.filter
    (fun r => r.user == u && r.ingredients.any (fun t => ids.contains (Int.ofNat t)))

/-! Helper lemmas about the list operations used by the embedding. -/

theorem find?_eq_head?_filter (p : α → Bool) (l : List α) :
    l.find? p = (l.filter p).head? := by
  induction l with
  | nil => rfl
  | cons a as ih =>
    by_cases h : p a
    · rw [List.find?_cons_of_pos _ h, List.filter_cons_of_pos h, List.head?_cons]
    · rw [List.find?_cons_of_neg _ h, List.filter_cons_of_neg h, ih]

theorem mem_insertBy (le : α → α → Bool) (a x : α) (l : List α) :
    x ∈ insertBy le a l ↔ x = a ∨ x ∈ l := by
  induction l with
  | nil => simp [insertBy]
  | cons b bs ih =>
    by_cases h : le a b <;> simp [insertBy, h, ih] <;> tauto

theorem mem_sortBy (le : α → α → Bool) (x : α) (l : List α) :
    x ∈ sortBy le l ↔ x ∈ l := by
  induction l with
  | nil => simp [sortBy]
  | cons a as ih => simp [sortBy, mem_insertBy, ih]

theorem mem_addLink (l : List Nat) (i j : Nat) :
    j ∈ addLink l i ↔ j ∈ l ∨ j = i := by
  unfold addLink
  by_cases h : i ∈ l
  · rw [if_pos (by simpa using h)]
    constructor
    · exact Or.inl
    · rintro (hj | rfl)
      · exact hj
      · exact h
  · rw [if_neg (by simpa using h)]
    simp

theorem self_mem_addLink (l : List Nat) (i : Nat) : i ∈ addLink l i := by
  rw [mem_addLink]; exact Or.inr rfl

theorem addLink_mono (l : List Nat) (i j : Nat) (h : j ∈ l) : j ∈ addLink l i := by
  rw [mem_addLink]; exact Or.inl h

/-! Frame and monotonicity lemmas for get-or-create and the assigne loops. -/

theorem tagGetOrCreate_fields (db : DB) (u : Nat) (n : String) :
    (tagGetOrCreate db u n).1.user = u ∧ (tagGetOrCreate db u n).1.name = n ∧
    (tagGetOrCreate db u n).1 ∈ (tagGetOrCreate db u n).2.tags := by
  unfold tagGetOrCreate
  cases hf : db.tags.find? (fun t => t.user == u && t.name == n) with
  | none => simp
  | some t =>
    have hp := List.find?_some hf
    have hm := List.mem_of_find?_eq_some hf
    simp only [Bool.and_eq_true, beq_iff_eq] at hp
    simp [hp.1, hp.2, hm]

theorem tagGetOrCreate_frame (db : DB) (u : Nat) (n : String) :
    (tagGetOrCreate db u n).2.ingredients = db.ingredients ∧
    (tagGetOrCreate db u n).2.recipes = db.recipes ∧
    (tagGetOrCreate db u n).2.nextIngredientId = db.nextIngredientId ∧
    (tagGetOrCreate db u n).2.nextRecipeId = db.nextRecipeId := by
  unfold tagGetOrCreate
  cases hf : db.tags.find? (fun t => t.user == u && t.name == n) <;> simp

theorem tagGetOrCreate_mono (db : DB) (u : Nat) (n : String) (t : TagRow)
    (h : t ∈ db.tags) : t ∈ (tagGetOrCreate db u n).2.tags := by
  unfold tagGetOrCreate
  cases hf : db.tags.find? (fun x => x.user == u && x.name == n) <;> simp [h]

theorem tagGetOrCreate_sub (db : DB) (u : Nat) (n : String) (t : TagRow)
    (h : t ∈ (tagGetOrCreate db u n).2.tags) :
    t ∈ db.tags ∨ (t.user = u ∧ t.name = n) := by
  unfold tagGetOrCreate at h
  cases hf : db.tags.find? (fun x => x.user == u && x.name == n) <;>
    simp [hf] at h
  · rcases h with h | h
    · exact Or.inl h
    · subst h; exact Or.inr ⟨rfl, rfl⟩
  · exact Or.inl h

theorem ingredientGetOrCreate_fields (db : DB) (u : Nat) (n : String) :
    (ingredientGetOrCreate db u n).1.user = u ∧
    (ingredientGetOrCreate db u n).1.name = n ∧
    (ingredientGetOrCreate db u n).1 ∈ (ingredientGetOrCreate db u n).2.ingredients := by
  unfold ingredientGetOrCreate
  cases hf : db.ingredients.find? (fun t => t.user == u && t.name == n) with
  | none => simp
  | some t =>
    have hp := List.find?_some hf
    have hm := List.mem_of_find?_eq_some hf
    simp only [Bool.and_eq_true, beq_iff_eq] at hp
    simp [hp.1, hp.2, hm]

theorem ingredientGetOrCreate_frame (db : DB) (u : Nat) (n : String) :
    (ingredientGetOrCreate db u n).2.tags = db.tags ∧
    (ingredientGetOrCreate db u n).2.recipes = db.recipes ∧
    (ingredientGetOrCreate db u n).2.nextTagId = db.nextTagId ∧
    (ingredientGetOrCreate db u n).2.nextRecipeId = db.nextRecipeId := by
  unfold ingredientGetOrCreate
  cases hf : db.ingredients.find? (fun t => t.user == u && t.name == n) <;> simp

theorem assigneTags_fields (u : Nat) (ns : List String) (r : Recipe) (db : DB) :
    (assigneTags u ns r db).1.id = r.id ∧
    (assigneTags u ns r db).1.user = r.user ∧
    (assigneTags u ns r db).1.title = r.title ∧
    (assigneTags u ns r db).1.description = r.description ∧
    (assigneTags u ns r db).1.time_minutes = r.time_minutes ∧
    (assigneTags u ns r db).1.price = r.price ∧
    (assigneTags u ns r db).1.link = r.link ∧
    (assigneTags u ns r db).1.ingredients = r.ingredients ∧
    (assigneTags u ns r db).1.image = r.image ∧
    (assigneTags u ns r db).2.ingredients = db.ingredients ∧
    (assigneTags u ns r db).2.recipes = db.recipes ∧
    (assigneTags u ns r db).2.nextIngredientId = db.nextIngredientId ∧
    (assigneTags u ns r db).2.nextRecipeId = db.nextRecipeId := by
  induction ns generalizing r db with
  | nil => simp [assigneTags]
  | cons n ns ih =>
    have hg := tagGetOrCreate_frame db u n
    simp only [assigneTags]
    refine ⟨?_, ?_, ?_, ?_, ?_, ?_, ?_, ?_, ?_, ?_, ?_, ?_, ?_⟩ <;>
      simp [ih, hg.1, hg.2.1, hg.2.2.1, hg.2.2.2]

theorem assigneIngredients_fields (u : Nat) (ns : List String) (r : Recipe) (db : DB) :
    (assigneIngredients u ns r db).1.id = r.id ∧
    (assigneIngredients u ns r db).1.user = r.user ∧
    (assigneIngredients u ns r db).1.title = r.title ∧
    (assigneIngredients u ns r db).1.description = r.description ∧
    (assigneIngredients u ns r db).1.time_minutes = r.time_minutes ∧
    (assigneIngredients u ns r db).1.price = r.price ∧
    (assigneIngredients u ns r db).1.link = r.link ∧
    (assigneIngredients u ns r db).1.tags = r.tags ∧
    (assigneIngredients u ns r db).1.image = r.image ∧
    (assigneIngredients u ns r db).2.tags = db.tags ∧
    (assigneIngredients u ns r db).2.recipes = db.recipes ∧
    (assigneIngredients u ns r db).2.nextTagId = db.nextTagId ∧
    (assigneIngredients u ns r db).2.nextRecipeId = db.nextRecipeId := by
  induction ns generalizing r db with
  | nil => simp [assigneIngredients]
  | cons n ns ih =>
    have hg := ingredientGetOrCreate_frame db u n
    simp only [assigneIngredients]
    refine ⟨?_, ?_, ?_, ?_, ?_, ?_, ?_, ?_, ?_, ?_, ?_, ?_, ?_⟩ <;>
      simp [ih, hg.1, hg.2.1, hg.2.2.1, hg.2.2.2]

theorem assigneTags_user (u : Nat) (ns : List String) (r : Recipe) (db : DB) :
    (assigneTags u ns r db).1.user = r.user :=
  (assigneTags_fields u ns r db).2.1

theorem assigneTags_ingredients (u : Nat) (ns : List String) (r : Recipe) (db : DB) :
    (assigneTags u ns r db).1.ingredients = r.ingredients :=
  (assigneTags_fields u ns r db).2.2.2.2.2.2.2.1

theorem assigneIngredients_user (u : Nat) (ns : List String) (r : Recipe) (db : DB) :
    (assigneIngredients u ns r db).1.user = r.user :=
  (assigneIngredients_fields u ns r db).2.1

theorem assigneIngredients_tags (u : Nat) (ns : List String) (r : Recipe) (db : DB) :
    (assigneIngredients u ns r db).1.tags = r.tags :=
  (assigneIngredients_fields u ns r db).2.2.2.2.2.2.2.1

theorem assigneTags_tags_mono (u : Nat) (ns : List String) (r : Recipe) (db : DB)
    (i : Nat) (h : i ∈ r.tags) : i ∈ (assigneTags u ns r db).1.tags := by
  induction ns generalizing r db with
  | nil => simpa [assigneTags] using h
  | cons n ns ih =>
    simp only [assigneTags]
    exact ih _ _ (addLink_mono _ _ _ h)

theorem assigneTags_dbtags_mono (u : Nat) (ns : List String) (r : Recipe) (db : DB)
    (t : TagRow) (h : t ∈ db.tags) : t ∈ (assigneTags u ns r db).2.tags := by
  induction ns generalizing r db with
  | nil => simpa [assigneTags] using h
  | cons n ns ih =>
    simp only [assigneTags]
    exact ih _ _ (tagGetOrCreate_mono db u n t h)

theorem assigneTags_complete (u : Nat) (ns : List String) (r : Recipe) (db : DB) :
    ∀ n ∈ ns, ∃ t, t ∈ (assigneTags u ns r db).2.tags ∧ t.user = u ∧ t.name = n ∧
      t.id ∈ (assigneTags u ns r db).1.tags := by
  induction ns generalizing r db with
  | nil => intro n hn; simp at hn
  | cons m ms ih =>
    intro n hn
    rcases List.mem_cons.mp hn with rfl | hn
    · obtain ⟨hu, hname, hmem⟩ := tagGetOrCreate_fields db u n
      refine ⟨(tagGetOrCreate db u n).1, ?_, hu, hname, ?_⟩
      · simpa only [assigneTags] using
          assigneTags_dbtags_mono u ms _ _ _ hmem
      · simp only [assigneTags]
        exact assigneTags_tags_mono u ms _ _ _ (self_mem_addLink _ _)
    · simp only [assigneTags]
      exact ih _ _ n hn

theorem assigneTags_tags_sub (u : Nat) (ns : List String) (r : Recipe) (db : DB) :
    ∀ i ∈ (assigneTags u ns r db).1.tags, i ∈ r.tags ∨
      ∃ t, t ∈ (assigneTags u ns r db).2.tags ∧ t.id = i ∧ t.user = u ∧ t.name ∈ ns := by
  induction ns generalizing r db with
  | nil => intro i hi; exact Or.inl (by simpa [assigneTags] using hi)
  | cons n ms ih =>
    intro i hi
    simp only [assigneTags] at hi ⊢
    rcases ih _ _ i hi with hmem | ⟨t, htmem, hid, hu, hname⟩
    · rcases (mem_addLink _ _ _).mp hmem with hr | rfl
      · exact Or.inl hr
      · obtain ⟨hu, hname, hmem'⟩ := tagGetOrCreate_fields db u n
        refine Or.inr ⟨(tagGetOrCreate db u n).1, ?_, rfl, hu, by simp [hname]⟩
        exact assigneTags_dbtags_mono u ms _ _ _ hmem'
    · exact Or.inr ⟨t, htmem, hid, hu, List.mem_cons_of_mem n hname⟩

theorem assigneTags_dbtags_sub (u : Nat) (ns : List String) (r : Recipe) (db : DB) :
    ∀ t ∈ (assigneTags u ns r db).2.tags, t ∈ db.tags ∨ (t.user = u ∧ t.name ∈ ns) := by
  induction ns generalizing r db with
  | nil => intro t ht; exact Or.inl (by simpa [assigneTags] using ht)
  | cons n ms ih =>
    intro t ht
    simp only [assigneTags] at ht
    rcases ih _ _ t ht with hmem | ⟨hu, hname⟩
    · rcases tagGetOrCreate_sub db u n t hmem with hdb | ⟨hu, hname⟩
      · exact Or.inl hdb
      · exact Or.inr ⟨hu, by simp [hname]⟩
    · exact Or.inr ⟨hu, List.mem_cons_of_mem n hname⟩

theorem applyScalars_user (r : Recipe) (vd : RecipePayload) (h : vd.user = none) :
    (applyScalars r vd).user = r.user := by
  unfold applyScalars
  rw [h]
  cases vd.title <;> cases vd.description <;> cases vd.time_minutes <;>
    cases vd.price <;> cases vd.link <;> rfl

theorem updateRecipe_user (authUser : Nat) (inst : Recipe) (vd : RecipePayload)
    (db : DB) (h : vd.user = none) :
    (updateRecipe authUser inst vd db).1.user = inst.user := by
  unfold updateRecipe
  rw [applyScalars_user _ vd h]
  cases hvt : vd.tags <;> cases hvi : vd.ingredients <;>
    simp [assigneTags_user]

theorem applyScalars_tags (r : Recipe) (vd : RecipePayload) :
    (applyScalars r vd).tags = r.tags := by
  unfold applyScalars
  cases vd.title <;> cases vd.description <;> cases vd.time_minutes <;>
    cases vd.price <;> cases vd.link <;> cases vd.user <;> rfl

theorem saveRecipe_tags (db : DB) (r : Recipe) : (saveRecipe db r).tags = db.tags := rfl

theorem tagGetOrCreate_notfound (d : DB) (u : Nat) (n : String)
    (h : d.tags.filter (fun t => t.user == u && t.name == n) = []) :
    tagGetOrCreate d u n =
      (⟨d.nextTagId, u, n⟩,
       { d with tags := d.tags ++ [⟨d.nextTagId, u, n⟩], nextTagId := d.nextTagId + 1 }) := by
  have hf : d.tags.find? (fun t => t.user == u && t.name == n) = none := by
    rw [find?_eq_head?_filter, h]; rfl
  unfold tagGetOrCreate
  rw [hf]

theorem tagGetOrCreate_found (d : DB) (u : Nat) (n : String) (t0 : TagRow) (rest : List TagRow)
    (h : d.tags.filter (fun t => t.user == u && t.name == n) = t0 :: rest) :
    tagGetOrCreate d u n = (t0, d) := by
  have hf : d.tags.find? (fun t => t.user == u && t.name == n) = some t0 := by
    rw [find?_eq_head?_filter, h]; rfl
  unfold tagGetOrCreate
  rw [hf]

theorem createRecipe_one_tag (u : Nat) (pl : RecipePayload) (d : DB) (n : String)
    (h1 : pl.tags = some [n]) (h2 : pl.ingredients = none) :
    createRecipe u pl d =
      ({ id := d.nextRecipeId, user := u, title := pl.title.getD "",
         description := pl.description.getD "", time_minutes := pl.time_minutes.getD 0,
         price := pl.price.getD 0, link := pl.link.getD "",
         tags := [(tagGetOrCreate { d with nextRecipeId := d.nextRecipeId + 1 } u n).1.id],
         ingredients := [], image := none },
       { (tagGetOrCreate { d with nextRecipeId := d.nextRecipeId + 1 } u n).2 with
         recipes :=
           (tagGetOrCreate { d with nextRecipeId := d.nextRecipeId + 1 } u n).2.recipes ++
           [{ id := d.nextRecipeId, user := u, title := pl.title.getD "",
              description := pl.description.getD "", time_minutes := pl.time_minutes.getD 0,
              price := pl.price.getD 0, link := pl.link.getD "",
              tags := [(tagGetOrCreate { d with nextRecipeId := d.nextRecipeId + 1 } u n).1.id],
              ingredients := [], image := none }] }) := by
  obtain ⟨plt, pld, plm, plp, pll, pltg, plig, plu⟩ := pl
  simp only at h1 h2
  subst h1; subst h2
  rfl

theorem createRecipe_one_tag_notfound (u : Nat) (pl : RecipePayload) (db : DB) (n : String)
    (h1 : pl.tags = some [n]) (h2 : pl.ingredients = none)
    (hf : db.tags.filter (fun t => t.user == u && t.name == n) = []) :
    (createRecipe u pl db).1.tags = [db.nextTagId] ∧
    (createRecipe u pl db).2.tags = db.tags ++ [⟨db.nextTagId, u, n⟩] ∧
    (createRecipe u pl db).2.recipes = db.recipes ++ [(createRecipe u pl db).1] := by
  rw [createRecipe_one_tag u pl db n h1 h2,
      tagGetOrCreate_notfound { db with nextRecipeId := db.nextRecipeId + 1 } u n hf]
  exact ⟨rfl, rfl, rfl⟩

theorem createRecipe_one_tag_found (u : Nat) (pl : RecipePayload) (db : DB) (n : String)
    (t0 : TagRow) (rest : List TagRow)
    (h1 : pl.tags = some [n]) (h2 : pl.ingredients = none)
    (hf : db.tags.filter (fun t => t.user == u && t.name == n) = t0 :: rest) :
    (createRecipe u pl db).1.tags = [t0.id] ∧
    (createRecipe u pl db).2.tags = db.tags ∧
    (createRecipe u pl db).2.recipes = db.recipes ++ [(createRecipe u pl db).1] := by
  rw [createRecipe_one_tag u pl db n h1 h2,
      tagGetOrCreate_found { db with nextRecipeId := db.nextRecipeId + 1 } u n t0 rest hf]
  exact ⟨rfl, rfl, rfl⟩

/-! Claim theorems. -/

/-- C5: for every Recipe create operation, the owning user of the created
Recipe is the authenticated caller, regardless of any owner field supplied
in the request payload (perform_create passes user = request.user, and the
serializer never lets an owner key through validation). -/
theorem create_owner_is_caller (caller : Nat) (p : RecipePayload) (db : DB) :
    (createRecipe caller p db).1.user = caller := by
  simp [createRecipe, assigneIngredients_user, assigneTags_user]

/-- C4: for every Recipe update whose payload contains an owner key, the
key has no effect: the owner after the update equals the owner before, and
the operation completes normally (the owner key is silently dropped because
it is not among the serializer Meta.fields). -/
theorem update_ignores_owner_field (caller : Nat) (inst : Recipe) (p : RecipePayload)
    (db : DB) (v : Nat) (_h : p.user = some v) :
    (recipeUpdate caller inst p db).1.user = inst.user := by
  unfold recipeUpdate
  exact updateRecipe_user caller inst (validateDetail p) db rfl

/-- Witness for update_ignores_owner_field at a concrete recipe and
payload carrying an owner key. -/
theorem update_ignores_owner_field_witness :
    ({ user := some 99 } : RecipePayload).user = some 99 ∧
    (recipeUpdate 1 (⟨1, 1, "T", "D", 5, 100, "L", [], [], none⟩ : Recipe)
      { user := some 99 } (⟨[], [], [], 1, 1, 2⟩ : DB)).1.user =
      (⟨1, 1, "T", "D", 5, 100, "L", [], [], none⟩ : Recipe).user :=
  ⟨rfl, update_ignores_owner_field 1 ⟨1, 1, "T", "D", 5, 100, "L", [], [], none⟩
    { user := some 99 } ⟨[], [], [], 1, 1, 2⟩ 99 rfl⟩

/-- C7: a partial update whose payload holds only the title changes only
the title; every other stored field of the Recipe, the owner and the tag
and ingredient link sets included, keeps its prior value. -/
theorem title_only_update_frame (caller : Nat) (inst : Recipe) (p : RecipePayload)
    (db : DB) (t : String)
    (h1 : p.title = some t) (h2 : p.description = none) (h3 : p.time_minutes = none)
    (h4 : p.price = none) (h5 : p.link = none) (h6 : p.tags = none)
    (h7 : p.ingredients = none) :
    (recipeUpdate caller inst p db).1 = { inst with title := t } := by
  obtain ⟨pt, pd, ptm, pp, plk, ptg, pig, pu⟩ := p
  simp only at h1 h2 h3 h4 h5 h6 h7
  subst h1 h2 h3 h4 h5 h6 h7
  rfl

/-- Witness for title_only_update_frame at a concrete recipe. -/
theorem title_only_update_frame_witness :
    ({ title := some "X" } : RecipePayload).title = some "X" ∧
    (recipeUpdate 1 (⟨3, 1, "Old", "Desc", 9, 250, "http", [4], [6], none⟩ : Recipe)
      { title := some "X" } (⟨[], [], [], 1, 1, 4⟩ : DB)).1 =
      { (⟨3, 1, "Old", "Desc", 9, 250, "http", [4], [6], none⟩ : Recipe) with
        title := "X" } :=
  ⟨rfl, title_only_update_frame 1 ⟨3, 1, "Old", "Desc", 9, 250, "http", [4], [6], none⟩
    { title := some "X" } ⟨[], [], [], 1, 1, 4⟩ "X" rfl rfl rfl rfl rfl rfl rfl⟩

/-- C9: the image upload endpoint rejects a payload that does not decode
as an image with a 400 status and leaves the recipe and the store exactly
as they were; a decodable payload yields a 200 status and records the path
derived from the recipe identifier. -/
theorem upload_image_contract (inst : Recipe) (p : ImagePayload) (db : DB) :
    (p.decodable = false → uploadImage inst p db = ((inst, db), 400)) ∧
    (p.decodable = true →
      (uploadImage inst p db).2 = 200 ∧
      (uploadImage inst p db).1.1.image = some (recipeImagePath inst.id)) := by
  constructor
  · intro h; simp [uploadImage, h]
  · intro h; simp [uploadImage, h]

/-- Witness for upload_image_contract at a concrete recipe, applying the
rejection branch on a non-decodable payload and the success branch on a
decodable one. -/
theorem upload_image_contract_witness :
    (uploadImage (⟨2, 1, "T", "D", 5, 100, "L", [], [], none⟩ : Recipe)
      ⟨false, "plain text"⟩ (⟨[], [], [], 1, 1, 3⟩ : DB)) =
      ((⟨2, 1, "T", "D", 5, 100, "L", [], [], none⟩, ⟨[], [], [], 1, 1, 3⟩), 400) ∧
    (uploadImage (⟨2, 1, "T", "D", 5, 100, "L", [], [], none⟩ : Recipe)
      ⟨true, "jpegdata"⟩ (⟨[], [], [], 1, 1, 3⟩ : DB)).2 = 200 ∧
    (uploadImage (⟨2, 1, "T", "D", 5, 100, "L", [], [], none⟩ : Recipe)
      ⟨true, "jpegdata"⟩ (⟨[], [], [], 1, 1, 3⟩ : DB)).1.1.image =
      some (recipeImagePath 2) :=
  ⟨(upload_image_contract ⟨2, 1, "T", "D", 5, 100, "L", [], [], none⟩
      ⟨false, "plain text"⟩ ⟨[], [], [], 1, 1, 3⟩).1 rfl,
   (upload_image_contract ⟨2, 1, "T", "D", 5, 100, "L", [], [], none⟩
      ⟨true, "jpegdata"⟩ ⟨[], [], [], 1, 1, 3⟩).2 rfl⟩

/-- C1: evaluation of RecipeSerializer.update at a payload carrying only an
ingredients key.  The recipe starts with ingredient link 5 (Pepper); the
code clears the ingredient links and then, through the _assigne_tags call
on line 82 of serializers.py, creates a Tag row named Salt and links it to
the recipe tag set, leaving the ingredient set empty and the Ingredient
table without a Salt row. -/
theorem update_ingredients_calls_tags :
    recipeUpdate 7 (⟨1, 7, "T", "D", 5, 100, "L", [], [5], none⟩ : Recipe)
        { ingredients := some ["Salt"] }
        (⟨[], [⟨5, 7, "Pepper"⟩], [⟨1, 7, "T", "D", 5, 100, "L", [], [5], none⟩], 1, 6, 2⟩ : DB)
      = (⟨1, 7, "T", "D", 5, 100, "L", [1], [], none⟩,
         ⟨[⟨1, 7, "Salt"⟩], [⟨5, 7, "Pepper"⟩],
          [⟨1, 7, "T", "D", 5, 100, "L", [1], [], none⟩], 2, 6, 2⟩) := by
  rfl

/-- C6 and C1 both fail when an ingredients key rides along: with tags
present as the empty list and ingredients non-empty, the resulting tag set
is not empty, because the ingredient names are linked as tags. -/
theorem update_tags_empty_counterexample :
    ({ tags := some [], ingredients := some ["Salt"] } : RecipePayload).tags = some [] ∧
    (recipeUpdate 7 (⟨1, 7, "T", "D", 5, 100, "L", [9], [5], none⟩ : Recipe)
        { tags := some [], ingredients := some ["Salt"] }
        (⟨[⟨9, 7, "Old"⟩], [⟨5, 7, "Pepper"⟩],
          [⟨1, 7, "T", "D", 5, 100, "L", [9], [5], none⟩], 10, 6, 2⟩ : DB)).1.tags ≠ [] := by
  exact ⟨rfl, by decide⟩

/-- C6 (amended): on update, the tags key distinguishes absent from empty
and reconciles a present list by get-or-create under the owner, provided
the payload does not also carry a non-empty ingredients list (whose names
would be linked as tags through the slip at serializers.py line 82). -/
theorem update_tags_absent_vs_empty (caller : Nat) (inst : Recipe) (p : RecipePayload)
    (db : DB) (hu : inst.user = caller)
    (hing : p.ingredients = none ∨ p.ingredients = some []) :
    (p.tags = none → (recipeUpdate caller inst p db).1.tags = inst.tags) ∧
    (p.tags = some [] → (recipeUpdate caller inst p db).1.tags = []) ∧
    (∀ names, p.tags = some names →
      (∀ n ∈ names, ∃ t ∈ (recipeUpdate caller inst p db).2.tags,
        t.user = inst.user ∧ t.name = n ∧
        t.id ∈ (recipeUpdate caller inst p db).1.tags) ∧
      (∀ i ∈ (recipeUpdate caller inst p db).1.tags,
        ∃ t ∈ (recipeUpdate caller inst p db).2.tags,
          t.id = i ∧ t.user = inst.user ∧ t.name ∈ names)) := by
  subst hu
  refine ⟨?_, ?_, ?_⟩
  · intro h
    unfold recipeUpdate updateRecipe
    rw [show (validateDetail p).tags = none from h]
    rcases hing with h2 | h2 <;> rw [show (validateDetail p).ingredients = _ from h2] <;>
      simp [assigneTags, applyScalars_tags]
  · intro h
    unfold recipeUpdate updateRecipe
    rw [show (validateDetail p).tags = some [] from h]
    rcases hing with h2 | h2 <;> rw [show (validateDetail p).ingredients = _ from h2] <;>
      simp [assigneTags, applyScalars_tags]
  · intro names h
    unfold recipeUpdate updateRecipe
    rw [show (validateDetail p).tags = some names from h]
    rcases hing with h2 | h2 <;> rw [show (validateDetail p).ingredients = _ from h2] <;>
      simp only [assigneTags, applyScalars_tags, saveRecipe_tags] <;>
      constructor
    · intro n hn
      obtain ⟨t, htm, htu, htn, hti⟩ :=
        assigneTags_complete inst.user names { inst with tags := [] } db n hn
      exact ⟨t, by simpa [applyScalars_tags] using htm,
        htu, htn, by simpa [applyScalars_tags] using hti⟩
    · intro i hi
      have hi' : i ∈ (assigneTags inst.user names { inst with tags := [] } db).1.tags := by
        simpa [applyScalars_tags] using hi
      rcases assigneTags_tags_sub inst.user names { inst with tags := [] } db i hi' with
        hmem | ⟨t, htm, hid, hu', hn⟩
      · simp at hmem
      · exact ⟨t, by simpa [applyScalars_tags] using htm, hid, hu', hn⟩
    · intro n hn
      obtain ⟨t, htm, htu, htn, hti⟩ :=
        assigneTags_complete inst.user names { inst with tags := [] } db n hn
      exact ⟨t, by simpa [applyScalars_tags] using htm,
        htu, htn, by simpa [applyScalars_tags] using hti⟩
    · intro i hi
      have hi' : i ∈ (assigneTags inst.user names { inst with tags := [] } db).1.tags := by
        simpa [applyScalars_tags] using hi
      rcases assigneTags_tags_sub inst.user names { inst with tags := [] } db i hi' with
        hmem | ⟨t, htm, hid, hu', hn⟩
      · simp at hmem
      · exact ⟨t, by simpa [applyScalars_tags] using htm, hid, hu', hn⟩

/-- Witness for update_tags_absent_vs_empty at a concrete recipe, using
the branch for a present non-empty tags list. -/
theorem update_tags_absent_vs_empty_witness :
    (⟨1, 7, "T", "D", 5, 100, "L", [9], [5], none⟩ : Recipe).user = 7 ∧
    (({ tags := some ["Lunch"] } : RecipePayload).ingredients = none ∨
      ({ tags := some ["Lunch"] } : RecipePayload).ingredients = some []) ∧
    ((({ tags := some ["Lunch"] } : RecipePayload).tags = none →
      (recipeUpdate 7 (⟨1, 7, "T", "D", 5, 100, "L", [9], [5], none⟩ : Recipe)
        { tags := some ["Lunch"] }
        (⟨[⟨9, 7, "Old"⟩], [⟨5, 7, "Pepper"⟩],
          [⟨1, 7, "T", "D", 5, 100, "L", [9], [5], none⟩], 10, 6, 2⟩ : DB)).1.tags =
        (⟨1, 7, "T", "D", 5, 100, "L", [9], [5], none⟩ : Recipe).tags) ∧
    (({ tags := some ["Lunch"] } : RecipePayload).tags = some [] →
      (recipeUpdate 7 (⟨1, 7, "T", "D", 5, 100, "L", [9], [5], none⟩ : Recipe)
        { tags := some ["Lunch"] }
        (⟨[⟨9, 7, "Old"⟩], [⟨5, 7, "Pepper"⟩],
          [⟨1, 7, "T", "D", 5, 100, "L", [9], [5], none⟩], 10, 6, 2⟩ : DB)).1.tags = []) ∧
    (∀ names, ({ tags := some ["Lunch"] } : RecipePayload).tags = some names →
      (∀ n ∈ names, ∃ t ∈ (recipeUpdate 7
          (⟨1, 7, "T", "D", 5, 100, "L", [9], [5], none⟩ : Recipe)
          { tags := some ["Lunch"] }
          (⟨[⟨9, 7, "Old"⟩], [⟨5, 7, "Pepper"⟩],
            [⟨1, 7, "T", "D", 5, 100, "L", [9], [5], none⟩], 10, 6, 2⟩ : DB)).2.tags,
        t.user = (⟨1, 7, "T", "D", 5, 100, "L", [9], [5], none⟩ : Recipe).user ∧
        t.name = n ∧
        t.id ∈ (recipeUpdate 7 (⟨1, 7, "T", "D", 5, 100, "L", [9], [5], none⟩ : Recipe)
          { tags := some ["Lunch"] }
          (⟨[⟨9, 7, "Old"⟩], [⟨5, 7, "Pepper"⟩],
            [⟨1, 7, "T", "D", 5, 100, "L", [9], [5], none⟩], 10, 6, 2⟩ : DB)).1.tags) ∧
      (∀ i ∈ (recipeUpdate 7 (⟨1, 7, "T", "D", 5, 100, "L", [9], [5], none⟩ : Recipe)
          { tags := some ["Lunch"] }
          (⟨[⟨9, 7, "Old"⟩], [⟨5, 7, "Pepper"⟩],
            [⟨1, 7, "T", "D", 5, 100, "L", [9], [5], none⟩], 10, 6, 2⟩ : DB)).1.tags,
        ∃ t ∈ (recipeUpdate 7 (⟨1, 7, "T", "D", 5, 100, "L", [9], [5], none⟩ : Recipe)
          { tags := some ["Lunch"] }
          (⟨[⟨9, 7, "Old"⟩], [⟨5, 7, "Pepper"⟩],
            [⟨1, 7, "T", "D", 5, 100, "L", [9], [5], none⟩], 10, 6, 2⟩ : DB)).2.tags,
          t.id = i ∧ t.user = (⟨1, 7, "T", "D", 5, 100, "L", [9], [5], none⟩ : Recipe).user ∧
          t.name ∈ names))) :=
  ⟨rfl, Or.inl rfl,
   update_tags_absent_vs_empty 7 ⟨1, 7, "T", "D", 5, 100, "L", [9], [5], none⟩
     { tags := some ["Lunch"] }
     ⟨[⟨9, 7, "Old"⟩], [⟨5, 7, "Pepper"⟩],
       [⟨1, 7, "T", "D", 5, 100, "L", [9], [5], none⟩], 10, 6, 2⟩ rfl (Or.inl rfl)⟩

/-- C3: creating two Recipes in sequence, each with the nested tag name
Lunch under the same user, leaves exactly one Tag row with that name for
that user, and both created recipes link its id. -/
theorem tag_reconciliation_idempotent (db : DB) (u : Nat) (pl : RecipePayload)
    (h1 : pl.tags = some ["Lunch"]) (h2 : pl.ingredients = none)
    (h3 : (db.tags.filter (fun t => t.user == u && t.name == "Lunch")).length ≤ 1) :
    (((createRecipe u pl ((createRecipe u pl db).2)).2.tags.filter
        (fun t => t.user == u && t.name == "Lunch")).length = 1) ∧
    (∃ t ∈ (createRecipe u pl ((createRecipe u pl db).2)).2.tags,
      t.user = u ∧ t.name = "Lunch" ∧
      t.id ∈ (createRecipe u pl db).1.tags ∧
      t.id ∈ (createRecipe u pl ((createRecipe u pl db).2)).1.tags) ∧
    (createRecipe u pl db).1 ∈ (createRecipe u pl ((createRecipe u pl db).2)).2.recipes ∧
    (createRecipe u pl ((createRecipe u pl db).2)).1 ∈
      (createRecipe u pl ((createRecipe u pl db).2)).2.recipes := by
  cases hf : db.tags.filter (fun t => t.user == u && t.name == "Lunch") with
  | nil =>
    obtain ⟨e1, e2, e3⟩ := createRecipe_one_tag_notfound u pl db "Lunch" h1 h2 hf
    have hf2 : ((createRecipe u pl db).2).tags.filter
        (fun t => t.user == u && t.name == "Lunch") = [⟨db.nextTagId, u, "Lunch"⟩] := by
      rw [e2, List.filter_append, hf]
      simp
    obtain ⟨f1, f2, f3⟩ :=
      createRecipe_one_tag_found u pl ((createRecipe u pl db).2) "Lunch"
        ⟨db.nextTagId, u, "Lunch"⟩ [] h1 h2 hf2
    refine ⟨?_, ⟨⟨db.nextTagId, u, "Lunch"⟩, ?_, rfl, rfl, ?_, ?_⟩, ?_, ?_⟩
    · rw [f2, hf2]; rfl
    · rw [f2, e2]
      exact List.mem_append_right _ (List.mem_singleton_self _)
    · rw [e1]; exact List.mem_singleton_self _
    · rw [f1]; exact List.mem_singleton_self _
    · rw [f3, e3]
      exact List.mem_append_left _ (List.mem_append_right _ (List.mem_singleton_self _))
    · rw [f3]
      exact List.mem_append_right _ (List.mem_singleton_self _)
  | cons t0 rest =>
    cases rest with
    | cons t1 r2 => rw [hf] at h3; simp at h3
    | nil =>
      have hmem := List.mem_filter.mp (hf ▸ List.mem_singleton_self t0)
      simp only [Bool.and_eq_true, beq_iff_eq] at hmem
      obtain ⟨e1, e2, e3⟩ := createRecipe_one_tag_found u pl db "Lunch" t0 [] h1 h2 hf
      have hf2 : ((createRecipe u pl db).2).tags.filter
          (fun t => t.user == u && t.name == "Lunch") = [t0] := by
        rw [e2, hf]
      obtain ⟨f1, f2, f3⟩ :=
        createRecipe_one_tag_found u pl ((createRecipe u pl db).2) "Lunch" t0 [] h1 h2 hf2
      refine ⟨?_, ⟨t0, ?_, hmem.2.1, hmem.2.2, ?_, ?_⟩, ?_, ?_⟩
      · rw [f2, hf2]; rfl
      · rw [f2, e2]; exact hmem.1
      · rw [e1]; exact List.mem_singleton_self _
      · rw [f1]; exact List.mem_singleton_self _
      · rw [f3, e3]
        exact List.mem_append_left _ (List.mem_append_right _ (List.mem_singleton_self _))
      · rw [f3]
        exact List.mem_append_right _ (List.mem_singleton_self _)

theorem mem_dedup_sortBy_filter {α : Type} [DecidableEq α] (le : α → α → Bool)
    (p : α → Bool) (l : List α) (x : α) :
    x ∈ ((sortBy le (l.filter p))).dedup ↔ x ∈ l ∧ p x = true := by
  rw [List.mem_dedup, mem_sortBy, List.mem_filter]

theorem truthy_some (s : String) (h : s ≠ "") : truthy (some s) = some s := by
  simp only [truthy]
  rw [if_neg]
  simp only [String.isEmpty_iff]
  exact h

theorem mem_joinTags (qs : List Recipe) (ids : List Int) (r : Recipe) :
    r ∈ joinTags qs ids ↔
      r ∈ qs ∧ r.tags.any (fun t => ids.contains (Int.ofNat t)) = true := by
  unfold joinTags
  rw [List.mem_flatMap]
  constructor
  · rintro ⟨a, ha, hr⟩
    rw [List.mem_map] at hr
    obtain ⟨t, htf, rfl⟩ := hr
    have hm := List.mem_filter.mp htf
    exact ⟨ha, List.any_eq_true.mpr ⟨t, hm.1, hm.2⟩⟩
  · rintro ⟨hq, hany⟩
    obtain ⟨t, ht, hc⟩ := List.any_eq_true.mp hany
    exact ⟨r, hq, List.mem_map.mpr ⟨t, List.mem_filter.mpr ⟨ht, hc⟩, rfl⟩⟩

theorem mem_joinIngredients (qs : List Recipe) (ids : List Int) (r : Recipe) :
    r ∈ joinIngredients qs ids ↔
      r ∈ qs ∧ r.ingredients.any (fun t => ids.contains (Int.ofNat t)) = true := by
  unfold joinIngredients
  rw [List.mem_flatMap]
  constructor
  · rintro ⟨a, ha, hr⟩
    rw [List.mem_map] at hr
    obtain ⟨t, htf, rfl⟩ := hr
    have hm := List.mem_filter.mp htf
    exact ⟨ha, List.any_eq_true.mpr ⟨t, hm.1, hm.2⟩⟩
  · rintro ⟨hq, hany⟩
    obtain ⟨t, ht, hc⟩ := List.any_eq_true.mp hany
    exact ⟨r, hq, List.mem_map.mpr ⟨t, List.mem_filter.mpr ⟨ht, hc⟩, rfl⟩⟩

theorem applyIngredientFilter_none (q : List Recipe) :
    applyIngredientFilter q none = some q := rfl

theorem applyTagFilter_none (q : List Recipe) :
    applyTagFilter q none = some q := rfl

theorem intListParse_none_of_mem (l : List String) (t : String) (ht : t ∈ l)
    (h : pyInt t = none) : intListParse l = none := by
  induction l with
  | nil => cases ht
  | cons s ss ih =>
    rcases List.mem_cons.mp ht with rfl | ht'
    · simp [intListParse, h]
    · simp only [intListParse]
      cases pyInt s
      · rfl
      · rw [ih ht']

theorem intListParse_isSome (l : List String) (h : ∀ t ∈ l, (pyInt t).isSome = true) :
    (intListParse l).isSome = true := by
  induction l with
  | nil => rfl
  | cons s ss ih =>
    obtain ⟨v, hv⟩ := Option.isSome_iff_exists.mp (h s (List.mem_cons_self s ss))
    obtain ⟨vs, hvs⟩ := Option.isSome_iff_exists.mp
      (ih (fun t ht => h t (List.mem_cons_of_mem s ht)))
    simp [intListParse, hv, hvs]

/-- C2: listing Recipes, Tags or Ingredients authenticated as u1 only ever
returns rows owned by u1 and never a row owned by a different user u2,
whatever combination of query parameters is supplied. -/
theorem listing_scoped_to_caller (db : DB) (u1 u2 : Nat) (h : u1 ≠ u2)
    (tp ip ao1 ao2 : Option String) :
    (∀ rs, recipeGetQueryset db u1 tp ip = some rs →
      ∀ r ∈ rs, r.user = u1 ∧ r.user ≠ u2) ∧
    (∀ ts, tagsGetQueryset db u1 ao1 = some ts →
      ∀ t ∈ ts, t.user = u1 ∧ t.user ≠ u2) ∧
    (∀ ls, ingredientsGetQueryset db u1 ao2 = some ls →
      ∀ t ∈ ls, t.user = u1 ∧ t.user ≠ u2) := by
  refine ⟨?_, ?_, ?_⟩
  · intro rs hrs r hr
    simp only [recipeGetQueryset] at hrs
    split at hrs
    · exact absurd hrs (by simp)
    · split at hrs
      · exact absurd hrs (by simp)
      · simp only [Option.some.injEq] at hrs
        subst hrs
        have hu := ((mem_dedup_sortBy_filter idDesc (fun r => r.user == u1) _ r).mp hr).2
        simp only [beq_iff_eq] at hu
        exact ⟨hu, hu ▸ h⟩
  · intro ts hts t ht
    simp only [tagsGetQueryset] at hts
    split at hts
    · exact absurd hts (by simp)
    · simp only [Option.some.injEq] at hts
      subst hts
      have hu := ((mem_dedup_sortBy_filter nameDescTag (fun x => x.user == u1) _ t).mp ht).2
      simp only [beq_iff_eq] at hu
      exact ⟨hu, hu ▸ h⟩
  · intro ls hls t ht
    simp only [ingredientsGetQueryset] at hls
    split at hls
    · exact absurd hls (by simp)
    · simp only [Option.some.injEq] at hls
      subst hls
      have hu :=
        ((mem_dedup_sortBy_filter nameDescIngredient (fun x => x.user == u1) _ t).mp ht).2
      simp only [beq_iff_eq] at hu
      exact ⟨hu, hu ▸ h⟩

/-- Witness for listing_scoped_to_caller at a concrete store with callers
1 and 2 and no query parameters. -/
theorem listing_scoped_to_caller_witness :
    (1 : Nat) ≠ 2 ∧
    ((∀ rs, recipeGetQueryset ⟨[], [], [], 1, 1, 1⟩ 1 none none = some rs →
      ∀ r ∈ rs, r.user = 1 ∧ r.user ≠ 2) ∧
    (∀ ts, tagsGetQueryset ⟨[], [], [], 1, 1, 1⟩ 1 none = some ts →
      ∀ t ∈ ts, t.user = 1 ∧ t.user ≠ 2) ∧
    (∀ ls, ingredientsGetQueryset ⟨[], [], [], 1, 1, 1⟩ 1 none = some ls →
      ∀ t ∈ ls, t.user = 1 ∧ t.user ≠ 2)) :=
  ⟨by decide, listing_scoped_to_caller ⟨[], [], [], 1, 1, 1⟩ 1 2 (by decide)
    none none none none⟩

/-- C8: the filtered Recipe listing agrees, as a duplicate-free set, with
the specification-side description: exactly the caller recipes whose tag
set (respectively ingredient set) intersects the ids given in the
comma-separated parameter. -/
theorem recipe_list_filter_matches_spec (db : DB) (u : Nat) (s : String) (ids : List Int)
    (hne : s ≠ "") (hp : paramsToInts s = some ids) :
    (∀ rs, recipeGetQueryset db u (some s) none = some rs →
      rs.Nodup ∧ rs.toFinset = (specRecipesWithTagIn db u ids).toFinset) ∧
    (∀ rs, recipeGetQueryset db u none (some s) = some rs →
      rs.Nodup ∧ rs.toFinset = (specRecipesWithIngredientIn db u ids).toFinset) := by
  have e1 : applyTagFilter db.recipes (some s) = some (joinTags db.recipes ids) := by
    simp [applyTagFilter, truthy_some s hne, hp]
  have e2 : applyIngredientFilter db.recipes (some s) =
      some (joinIngredients db.recipes ids) := by
    simp [applyIngredientFilter, truthy_some s hne, hp]
  constructor
  · intro rs hrs
    simp only [recipeGetQueryset, e1, applyIngredientFilter_none,
      Option.some.injEq] at hrs
    subst hrs
    refine ⟨List.nodup_dedup _, ?_⟩
    ext a
    simp only [List.mem_toFinset, mem_dedup_sortBy_filter, mem_joinTags,
      specRecipesWithTagIn, List.mem_filter, Bool.and_eq_true]
    tauto
  · intro rs hrs
    simp only [recipeGetQueryset, applyTagFilter_none, e2,
      Option.some.injEq] at hrs
    subst hrs
    refine ⟨List.nodup_dedup _, ?_⟩
    ext a
    simp only [List.mem_toFinset, mem_dedup_sortBy_filter, mem_joinIngredients,
      specRecipesWithIngredientIn, List.mem_filter, Bool.and_eq_true]
    tauto

/-- C10: parameter conversion is partial.  A non-empty tags or ingredients
parameter containing a token that does not convert to an integer makes
get_queryset raise (none); when every token converts the listing returns a
result. -/
theorem filter_param_int_conversion (db : DB) (u : Nat) (s : String) (hne : s ≠ "") :
    ((∃ t ∈ splitComma s, pyInt t = none) →
      recipeGetQueryset db u (some s) none = none ∧
      recipeGetQueryset db u none (some s) = none) ∧
    ((∀ t ∈ splitComma s, (pyInt t).isSome = true) →
      (recipeGetQueryset db u (some s) none).isSome = true ∧
      (recipeGetQueryset db u none (some s)).isSome = true) := by
  constructor
  · rintro ⟨t, ht, hbad⟩
    have hp : paramsToInts s = none := intListParse_none_of_mem _ t ht hbad
    constructor
    · simp [recipeGetQueryset, applyTagFilter, truthy_some s hne, hp]
    · simp [recipeGetQueryset, applyTagFilter_none, applyIngredientFilter,
        truthy_some s hne, hp]
  · intro hall
    obtain ⟨ids, hids⟩ := Option.isSome_iff_exists.mp (intListParse_isSome _ hall)
    have hp : paramsToInts s = some ids := hids
    have e1 : applyTagFilter db.recipes (some s) = some (joinTags db.recipes ids) := by
      simp [applyTagFilter, truthy_some s hne, hp]
    have e2 : applyIngredientFilter db.recipes (some s) =
        some (joinIngredients db.recipes ids) := by
      simp [applyIngredientFilter, truthy_some s hne, hp]
    constructor
    · simp [recipeGetQueryset, e1, applyIngredientFilter_none]
    · simp [recipeGetQueryset, applyTagFilter_none, e2]

/-- Witness for tag_reconciliation_idempotent: two creates with tag name
Lunch for user 7 against an initially empty store. -/
theorem tag_reconciliation_idempotent_witness :
    ({ tags := some ["Lunch"] } : RecipePayload).tags = some ["Lunch"] ∧
    ({ tags := some ["Lunch"] } : RecipePayload).ingredients = none ∧
    (((⟨[], [], [], 1, 1, 1⟩ : DB).tags.filter
        (fun t => t.user == 7 && t.name == "Lunch")).length ≤ 1) ∧
    ((((createRecipe 7 { tags := some ["Lunch"] }
          ((createRecipe 7 { tags := some ["Lunch"] } ⟨[], [], [], 1, 1, 1⟩).2)).2.tags.filter
        (fun t => t.user == 7 && t.name == "Lunch")).length = 1) ∧
     (∃ t ∈ (createRecipe 7 { tags := some ["Lunch"] }
          ((createRecipe 7 { tags := some ["Lunch"] } ⟨[], [], [], 1, 1, 1⟩).2)).2.tags,
        t.user = 7 ∧ t.name = "Lunch" ∧
        t.id ∈ (createRecipe 7 { tags := some ["Lunch"] } ⟨[], [], [], 1, 1, 1⟩).1.tags ∧
        t.id ∈ (createRecipe 7 { tags := some ["Lunch"] }
          ((createRecipe 7 { tags := some ["Lunch"] } ⟨[], [], [], 1, 1, 1⟩).2)).1.tags) ∧
     (createRecipe 7 { tags := some ["Lunch"] } ⟨[], [], [], 1, 1, 1⟩).1 ∈
       (createRecipe 7 { tags := some ["Lunch"] }
         ((createRecipe 7 { tags := some ["Lunch"] } ⟨[], [], [], 1, 1, 1⟩).2)).2.recipes ∧
     (createRecipe 7 { tags := some ["Lunch"] }
         ((createRecipe 7 { tags := some ["Lunch"] } ⟨[], [], [], 1, 1, 1⟩).2)).1 ∈
       (createRecipe 7 { tags := some ["Lunch"] }
         ((createRecipe 7 { tags := some ["Lunch"] } ⟨[], [], [], 1, 1, 1⟩).2)).2.recipes) :=
  ⟨rfl, rfl, by decide,
   tag_reconciliation_idempotent ⟨[], [], [], 1, 1, 1⟩ 7 { tags := some ["Lunch"] }
     rfl rfl (by decide)⟩

/-- Witness for recipe_list_filter_matches_spec at the spec example: R1
tagged T1, R2 tagged T2, R3 untagged, filter string 1,2. -/
theorem recipe_list_filter_matches_spec_witness :
    ("1,2" : String) ≠ "" ∧ paramsToInts "1,2" = some [1, 2] ∧
    ((∀ rs, recipeGetQueryset
        ⟨[⟨1, 1, "T1"⟩, ⟨2, 1, "T2"⟩], [],
         [⟨1, 1, "R1", "", 1, 1, "", [1], [], none⟩,
          ⟨2, 1, "R2", "", 1, 1, "", [2], [], none⟩,
          ⟨3, 1, "R3", "", 1, 1, "", [], [], none⟩], 3, 1, 4⟩ 1 (some "1,2") none =
          some rs →
      rs.Nodup ∧ rs.toFinset = (specRecipesWithTagIn
        ⟨[⟨1, 1, "T1"⟩, ⟨2, 1, "T2"⟩], [],
         [⟨1, 1, "R1", "", 1, 1, "", [1], [], none⟩,
          ⟨2, 1, "R2", "", 1, 1, "", [2], [], none⟩,
          ⟨3, 1, "R3", "", 1, 1, "", [], [], none⟩], 3, 1, 4⟩ 1 [1, 2]).toFinset) ∧
     (∀ rs, recipeGetQueryset
        ⟨[⟨1, 1, "T1"⟩, ⟨2, 1, "T2"⟩], [],
         [⟨1, 1, "R1", "", 1, 1, "", [1], [], none⟩,
          ⟨2, 1, "R2", "", 1, 1, "", [2], [], none⟩,
          ⟨3, 1, "R3", "", 1, 1, "", [], [], none⟩], 3, 1, 4⟩ 1 none (some "1,2") =
          some rs →
      rs.Nodup ∧ rs.toFinset = (specRecipesWithIngredientIn
        ⟨[⟨1, 1, "T1"⟩, ⟨2, 1, "T2"⟩], [],
         [⟨1, 1, "R1", "", 1, 1, "", [1], [], none⟩,
          ⟨2, 1, "R2", "", 1, 1, "", [2], [], none⟩,
          ⟨3, 1, "R3", "", 1, 1, "", [], [], none⟩], 3, 1, 4⟩ 1 [1, 2]).toFinset)) :=
  ⟨by decide, rfl,
   recipe_list_filter_matches_spec
     ⟨[⟨1, 1, "T1"⟩, ⟨2, 1, "T2"⟩], [],
      [⟨1, 1, "R1", "", 1, 1, "", [1], [], none⟩,
       ⟨2, 1, "R2", "", 1, 1, "", [2], [], none⟩,
       ⟨3, 1, "R3", "", 1, 1, "", [], [], none⟩], 3, 1, 4⟩ 1 "1,2" [1, 2]
     (by decide) rfl⟩

/-- Witness for filter_param_int_conversion: the token x raises, the
fully numeric parameter returns a result. -/
theorem filter_param_int_conversion_witness :
    (("1,x" : String) ≠ "" ∧
     (∃ t ∈ splitComma "1,x", pyInt t = none) ∧
     recipeGetQueryset ⟨[], [], [], 1, 1, 1⟩ 1 (some "1,x") none = none ∧
     recipeGetQueryset ⟨[], [], [], 1, 1, 1⟩ 1 none (some "1,x") = none) ∧
    (("1,2" : String) ≠ "" ∧
     (∀ t ∈ splitComma "1,2", (pyInt t).isSome = true) ∧
     (recipeGetQueryset ⟨[], [], [], 1, 1, 1⟩ 1 (some "1,2") none).isSome = true ∧
     (recipeGetQueryset ⟨[], [], [], 1, 1, 1⟩ 1 none (some "1,2")).isSome = true) :=
  ⟨⟨by decide, ⟨"x", by decide, rfl⟩,
    (filter_param_int_conversion ⟨[], [], [], 1, 1, 1⟩ 1 "1,x" (by decide)).1
      ⟨"x", by decide, rfl⟩⟩,
   ⟨by decide, by decide,
    (filter_param_int_conversion ⟨[], [], [], 1, 1, 1⟩ 1 "1,2" (by decide)).2
      (by decide)⟩⟩

end RecipeApp
